/-
Verification of the cloudflare-cache-warmer repository.

Shallow embedding of the pure computational content of:
  * the pagination cursor in the `scheduled` handler (index.js / part_001),
  * the manual-trigger slice in the `fetch` handler (part_001),
  * region rotation `getNextRegion` (storage.js / part_000),
  * the warming executor loop `CacheWarmerDO.handleWarm` (warmer-do.js),
  * sitemap URL discovery `getAllUrls` / `parseSitemap` (warmer.js / part_000),
  * history aggregation `getHistoricalData` (storage.js / part_000).

External effects (KV reads/writes, HTTP fetches) are modelled by explicit
parameters: KV state is passed in and returned, each HTTP fetch outcome is an
input value, and a thrown/caught KV exception is a Boolean flag.  JavaScript
numbers on the counter paths are naturals; the floating-point rate
computations are modelled over ℚ with `toFixed(2)` as rounding to hundredths.
-/
import Mathlib

namespace CacheWarmer

/-! ### Pagination cursor (scheduled handler, part_001 lines 116-147)

JS: reads `progress_<region>` (default '0'), sets
`endIndex = Math.min(startIndex + MAX_URLS_PER_RUN, allUrls.length)`,
`urlsToWarm = allUrls.slice(startIndex, endIndex)`, and persists
`newIndex = endIndex >= allUrls.length ? 0 : endIndex`. -/

structure PagStep where
  slice : List String
  newOffset : Nat
  isFinalPageOfCycle : Bool
  deriving Repr, DecidableEq

/-- One pagination step of the `scheduled` handler: slice from the persisted
offset, persist `endIndex` unless the end of the catalog is reached, in which
case persist `0`. -/
def pagStep (catalog : List String) (pageSize offset : Nat) : PagStep :=
  let endIndex := min (offset + pageSize) catalog.length
  { slice := (catalog.take endIndex).drop offset
    newOffset := if catalog.length ≤ endIndex then 0 else endIndex
    isFinalPageOfCycle := catalog.length ≤ endIndex }

/-- Iterate `pagStep` until the cycle completes (or fuel runs out), collecting
all slices in order together with the finally persisted offset. -/
def pagRun (catalog : List String) (pageSize : Nat) : Nat → Nat → List String × Nat
  | 0, offset => ([], offset)
  | fuel + 1, offset =>
    let s := pagStep catalog pageSize offset
    if s.isFinalPageOfCycle then (s.slice, s.newOffset)
    else
      let rest := pagRun catalog pageSize fuel s.newOffset
      (s.slice ++ rest.1, rest.2)

/-! ### Manual-trigger slice (fetch handler, part_001 lines 209-292)

JS: `urlsToWarm = allUrls.slice(0, urlCount)`; the `progress_<region>` key is
never read nor written on this path, so the persisted offset is unchanged. -/

/-- Slice taken by the `scheduled` handler together with the offset it
persists (same computation as `pagStep`, kept as the handler writes it). -/
def scheduledSlice (catalog : List String) (maxUrlsPerRun offset : Nat) :
    List String × Nat :=
  let endIndex := min (offset + maxUrlsPerRun) catalog.length
  let urlsToWarm := (catalog.take endIndex).drop offset
  let newIndex := if catalog.length ≤ endIndex then 0 else endIndex
  (urlsToWarm, newIndex)

/-- Slice taken by the manual `/trigger` handler together with the pagination
offset after the call (the handler never touches `progress_<region>`). -/
def triggerSlice (catalog : List String) (urlCount : Nat) (offset : Nat) :
    List String × Nat :=
  (catalog.take urlCount, offset)

/-! ### Region rotation (`getNextRegion`, part_000 lines 100-121)

JS: `lastIndex = value !== null ? parseInt(value) : -1`,
`nextIndex = (lastIndex + 1) % regionKeys.length`, persist `nextIndex`,
return `regionKeys[nextIndex]`.  A throw on the KV `get`/`put` is caught and
the first region is returned with the cursor left as it was; an empty region
list throws `No regions configured` before the try block. -/

/-- The success path of `getNextRegion`: next index and returned label from
the persisted cursor (`-1` when the KV key is absent). -/
def nextRegionOk (regionKeys : List String) (lastIndex : Int) : String × Int :=
  let nextIndex := (lastIndex + 1) % (regionKeys.length : Int)
  (regionKeys.getD nextIndex.toNat "", nextIndex)

/-- `k` consecutive `getNextRegion` calls (success path): the returned labels
in order and the finally persisted cursor. -/
def rotateCalls (regionKeys : List String) : Int → Nat → List String × Int
  | cursor, 0 => ([], cursor)
  | cursor, k + 1 =>
    let r := nextRegionOk regionKeys cursor
    let rest := rotateCalls regionKeys r.2 k
    (r.1 :: rest.1, rest.2)

/-- Full `getNextRegion` with its failure behaviour: `readFails` models a
throw from the KV `get`, `writeFails` a throw from the KV `put`; either is
caught and the first region is returned, the cursor being left unchanged.
An empty region list raises `No regions configured`. -/
def getNextRegionKV (regionKeys : List String) (cursor : Option Int)
    (readFails writeFails : Bool) : Except String (String × Option Int) :=
  if regionKeys.length = 0 then .error "No regions configured"
  else if readFails then .ok (regionKeys.getD 0 "", cursor)
  else
    let lastIndex := cursor.getD (-1)
    let nextIndex := (lastIndex + 1) % (regionKeys.length : Int)
    if writeFails then .ok (regionKeys.getD 0 "", cursor)
    else .ok (regionKeys.getD nextIndex.toNat "", some nextIndex)

/-! ### Warming executor (`CacheWarmerDO.handleWarm`, warmer-do.js lines 17-141)

The loop body for one URL.  The HTTP outcome is an input with three cases
matching the throw points of the `try` block: `ok` — the fetch resolved and
the body drain `await response.text()` succeeded; `okDrainErr` — the fetch
resolved (so every tally, the detail push and `success++` ran) but the body
drain on line 114 then threw, landing in the `catch`, which additionally runs
`failures++` and pushes a second, error-shaped entry for the same URL;
`err` — the fetch itself threw, so only the `catch` runs.  JS
`headers.get(h) || 'UNKNOWN'` is `Option.getD · "UNKNOWN"`;
`cfRay.includes('-') ? cfRay.split('-').pop() : 'UNKNOWN'` is modelled on the
string's character list. -/

inductive FetchOutcome where
  | ok (status : Nat) (cacheStatusHeader : Option String) (cfRayHeader : Option String)
  | okDrainErr (status : Nat) (cacheStatusHeader : Option String)
      (cfRayHeader : Option String) (msg : String)
  | err (msg : String)
  deriving Repr, DecidableEq

inductive UrlEntry where
  | ok (url : String) (status : Nat) (cacheStatus cfRay targetColo actualColo : String)
      (coloMatch regionalMatch : Bool)
  | err (url : String) (msg : String)
  deriving Repr, DecidableEq

structure Results where
  success : Nat := 0
  failures : Nat := 0
  cacheHit : Nat := 0
  cacheMiss : Nat := 0
  cacheExpired : Nat := 0
  cacheOther : Nat := 0
  coloMatched : Nat := 0
  coloMismatched : Nat := 0
  regionMatched : Nat := 0
  regionMismatched : Nat := 0
  coloBreakdown : List (String × Nat) := []
  urls : List UrlEntry := []
  deriving Repr, DecidableEq

/-- The observed edge-location code extracted from the `CF-RAY` header:
`cfRay.includes('-') ? cfRay.split('-').pop() : 'UNKNOWN'`.  The last segment
of `split('-')` is the character suffix after the final hyphen. -/
def actualColoOf (cfRayHeader : Option String) : String :=
  let cfRay := cfRayHeader.getD "UNKNOWN"
  if cfRay.data.contains '-' then
    String.mk ((cfRay.data.reverse.takeWhile fun c => c ≠ '-').reverse)
  else "UNKNOWN"

/-- `coloBreakdown[actualColo] = (coloBreakdown[actualColo] || 0) + 1`. -/
def bumpColo (bd : List (String × Nat)) (colo : String) : List (String × Nat) :=
  match bd with
  | [] => [(colo, 1)]
  | (k, v) :: rest =>
    if k = colo then (k, v + 1) :: rest else (k, v) :: bumpColo rest colo

/-- The `switch (cacheStatus)` tally. -/
def tallyCache (st : Results) (cacheStatus : String) : Results :=
  if cacheStatus = "HIT" then { st with cacheHit := st.cacheHit + 1 }
  else if cacheStatus = "MISS" then { st with cacheMiss := st.cacheMiss + 1 }
  else if cacheStatus = "EXPIRED" then { st with cacheExpired := st.cacheExpired + 1 }
  else { st with cacheOther := st.cacheOther + 1 }

/-- The exact-colo tally: only a known observed code enters the breakdown and
the matched/mismatched counters. -/
def tallyColo (st : Results) (actualColo targetColo : String) : Results :=
  if actualColo ≠ "UNKNOWN" then
    let st1 := { st with coloBreakdown := bumpColo st.coloBreakdown actualColo }
    if actualColo = targetColo then { st1 with coloMatched := st1.coloMatched + 1 }
    else { st1 with coloMismatched := st1.coloMismatched + 1 }
  else st

/-- The regional tally: `regionalMatch ? regionMatched++ : regionMismatched++`. -/
def tallyRegion (st : Results) (regionalMatch : Bool) : Results :=
  if regionalMatch then { st with regionMatched := st.regionMatched + 1 }
  else { st with regionMismatched := st.regionMismatched + 1 }

/-- The `try` block of the loop up to and including `results.success++`
(warmer-do.js lines 62-113): everything that runs once the fetch resolved,
before the body drain on line 114. -/
def warmOkBody (targetColo : String) (regionColos : List String) (st : Results)
    (url : String) (status : Nat)
    (cacheStatusHeader cfRayHeader : Option String) : Results :=
  let cacheStatus := cacheStatusHeader.getD "UNKNOWN"
  let cfRay := cfRayHeader.getD "UNKNOWN"
  let actualColo := actualColoOf cfRayHeader
  let exactColoMatch := actualColo = targetColo
  let regionalMatch := actualColo ≠ "UNKNOWN" ∧ actualColo ∈ regionColos
  let st1 := tallyCache st cacheStatus
  let st2 := tallyColo st1 actualColo targetColo
  let st3 := tallyRegion st2 (decide regionalMatch)
  { st3 with
      urls := st3.urls ++ [UrlEntry.ok url status cacheStatus cfRay targetColo
        actualColo (decide exactColoMatch) (decide regionalMatch)]
      success := st3.success + 1 }

/-- The `catch` block (warmer-do.js lines 116-119): `failures++` and a second
push with the error message. -/
def warmCatch (st : Results) (url msg : String) : Results :=
  { st with failures := st.failures + 1
            urls := st.urls ++ [UrlEntry.err url msg] }

/-- One iteration of the `for (const urlToWarm of urls)` loop. -/
def warmStep (targetColo : String) (regionColos : List String) (st : Results) :
    String × FetchOutcome → Results
  | (url, .err msg) => warmCatch st url msg
  | (url, .ok status cacheStatusHeader cfRayHeader) =>
    warmOkBody targetColo regionColos st url status cacheStatusHeader cfRayHeader
  | (url, .okDrainErr status cacheStatusHeader cfRayHeader msg) =>
    warmCatch
      (warmOkBody targetColo regionColos st url status cacheStatusHeader cfRayHeader)
      url msg

/-- The whole warming loop over the input URL slice. -/
def runWarm (targetColo : String) (regionColos : List String)
    (inputs : List (String × FetchOutcome)) : Results :=
  inputs.foldl (warmStep targetColo regionColos) {}

/-- JS `x.toFixed(2)` modelled over ℚ: round to hundredths (half up, i.e.
`⌊100q + 1/2⌋`, written with explicit integer division so that it evaluates)
and render with exactly two decimal digits. -/
def toFixed2 (q : ℚ) : String :=
  let scaled : Int := Int.ediv (q.num * 200 + q.den) (2 * q.den)
  let sign := if scaled < 0 then "-" else ""
  let n := scaled.natAbs
  let frac := n % 100
  sign ++ toString (n / 100) ++ "." ++
    (if frac < 10 then "0" ++ toString frac else toString frac)

/-- The exact rational value of `hitRate` (0 when `success` is 0, as the JS
ternary yields the constant string `'0.00'`). -/
def hitRateQ (r : Results) : ℚ :=
  if r.success = 0 then 0
  else ((r.cacheHit : ℚ) + r.cacheExpired) / r.success * 100

/-- `results.hitRate = success ? ((hit+expired)/success*100).toFixed(2) : '0.00'`. -/
def hitRateStr (r : Results) : String :=
  if r.success = 0 then "0.00"
  else toFixed2 (((r.cacheHit : ℚ) + r.cacheExpired) / r.success * 100)

/-- The exact rational value of `coloMatchRate`. -/
def coloMatchRateQ (r : Results) : ℚ :=
  if r.coloMatched + r.coloMismatched = 0 then 0
  else (r.coloMatched : ℚ) / ((r.coloMatched : ℚ) + r.coloMismatched) * 100

/-- `coloMatchRate = coloChecks ? ((matched/coloChecks)*100).toFixed(2) : '0.00'`. -/
def coloMatchRateStr (r : Results) : String :=
  if r.coloMatched + r.coloMismatched = 0 then "0.00"
  else toFixed2 ((r.coloMatched : ℚ) / ((r.coloMatched : ℚ) + r.coloMismatched) * 100)

/-- The exact rational value of `regionMatchRate`. -/
def regionMatchRateQ (r : Results) : ℚ :=
  if r.regionMatched + r.regionMismatched = 0 then 0
  else (r.regionMatched : ℚ) / ((r.regionMatched : ℚ) + r.regionMismatched) * 100

/-- `regionMatchRate = regionChecks ? (...).toFixed(2) : '0.00'`. -/
def regionMatchRateStr (r : Results) : String :=
  if r.regionMatched + r.regionMismatched = 0 then "0.00"
  else toFixed2 ((r.regionMatched : ℚ) /
    ((r.regionMatched : ℚ) + r.regionMismatched) * 100)

/-- The per-URL detail entries the loop records for one input: one entry for
a clean response or a fetch throw, two for a response whose body drain threw
(the detail push on line 101 and then the `catch` push on line 118). -/
def entriesOf (targetColo : String) (regionColos : List String) :
    String × FetchOutcome → List UrlEntry
  | (url, .err msg) => [.err url msg]
  | (url, .ok status cacheStatusHeader cfRayHeader) =>
    [.ok url status (cacheStatusHeader.getD "UNKNOWN") (cfRayHeader.getD "UNKNOWN")
      targetColo (actualColoOf cfRayHeader)
      (decide (actualColoOf cfRayHeader = targetColo))
      (decide (actualColoOf cfRayHeader ≠ "UNKNOWN" ∧
        actualColoOf cfRayHeader ∈ regionColos))]
  | (url, .okDrainErr status cacheStatusHeader cfRayHeader msg) =>
    [.ok url status (cacheStatusHeader.getD "UNKNOWN") (cfRayHeader.getD "UNKNOWN")
      targetColo (actualColoOf cfRayHeader)
      (decide (actualColoOf cfRayHeader = targetColo))
      (decide (actualColoOf cfRayHeader ≠ "UNKNOWN" ∧
        actualColoOf cfRayHeader ∈ regionColos)),
      .err url msg]

/-- Number of inputs whose fetch resolved with a response — with or without a
later body-drain throw: exactly these run `results.success++` (line 113). -/
def countOk (inputs : List (String × FetchOutcome)) : Nat :=
  inputs.countP fun p => match p.2 with
    | .ok _ _ _ => true | .okDrainErr _ _ _ _ => true | .err _ => false

/-- Number of inputs on which something threw — the fetch itself or the body
drain: exactly these run the `catch` and `results.failures++` (line 117). -/
def countErr (inputs : List (String × FetchOutcome)) : Nat :=
  inputs.countP fun p => match p.2 with
    | .ok _ _ _ => false | .okDrainErr _ _ _ _ => true | .err _ => true

/-- Number of inputs whose response resolved but whose body drain
(`await response.text()`, line 114) threw: these are double-counted, once as
a success and once as a failure, with two detail entries. -/
def countDrain (inputs : List (String × FetchOutcome)) : Nat :=
  inputs.countP fun p => match p.2 with
    | .ok _ _ _ => false | .okDrainErr _ _ _ _ => true | .err _ => false

/-! ### URL discovery (`getAllUrls` / `parseSitemap`, warmer.js lines 13-77)

A fetched sitemap document is modelled as a tree: a leaf sitemap carries its
`<loc>` URLs; a sitemap index carries nested sitemaps; `failed` stands for a
document whose fetch or parse threw (caught, logged, skipped — contributing
no URLs).  `getAllUrls` inserts every URL of every source into a JS `Set`
(first-insertion order kept, later duplicates ignored) and returns
`Array.from` of it. -/

inductive Sitemap where
  | leaf (urls : List String)
  | index (children : List Sitemap)
  | failed

mutual

/-- Depth-first URL extraction of `parseSitemap`: a leaf yields its URLs, an
index concatenates the URLs of its children in order, a failed fetch yields
nothing (its exception is caught by the caller). -/
def parseSitemap : Sitemap → List String
  | .leaf urls => urls
  | .index cs => parseSitemapList cs
  | .failed => []

/-- The `for (const nestedSitemapUrl of sitemapUrls)` loop of the index case. -/
def parseSitemapList : List Sitemap → List String
  | [] => []
  | c :: rest => parseSitemap c ++ parseSitemapList rest

end

/-- JS `Set` insertion over a stream of URLs: keep the first occurrence of
each URL, in first-encounter order; `seen` is the set built so far. -/
def dedupFirst (seen : List String) : List String → List String
  | [] => []
  | u :: rest =>
    if u ∈ seen then dedupFirst seen rest else u :: dedupFirst (u :: seen) rest

/-- `getAllUrls`: parse every configured sitemap source in order and collect
the URLs into one insertion-ordered set. -/
def getAllUrls (sources : List Sitemap) : List String :=
  dedupFirst [] (parseSitemapList sources)

/-! ### History aggregation (`getHistoricalData`, part_000 lines 234-291)

The KV listing/fetching is external; the input is the list of successfully
fetched and parsed stored summaries.  `r.hitRate` is stored as a string and
read back through `parseFloat(r.hitRate || '0') || 0`; the model carries the
parsed rational directly as `hitRateQ`. -/

structure RunSummary where
  timestamp : Nat
  success : Nat
  failures : Nat
  cacheHit : Nat
  cacheMiss : Nat
  cacheExpired : Nat
  hitRateQ : ℚ
  deriving Repr, DecidableEq

structure HistoryTotals where
  totalExecutions : Nat
  totalSuccess : Nat
  totalFailures : Nat
  totalCacheHit : Nat
  totalCacheMiss : Nat
  totalCacheExpired : Nat
  averageHitRate : String
  deriving Repr, DecidableEq

/-- Newest-first ordering used by `allResults.sort((a, b) => (b.timestamp||0)
- (a.timestamp||0))`. -/
def newestFirst (a b : RunSummary) : Prop := b.timestamp ≤ a.timestamp

instance : DecidableRel newestFirst := fun a b => Nat.decLe b.timestamp a.timestamp

instance : IsTotal RunSummary newestFirst :=
  ⟨fun a b => Nat.le_total b.timestamp a.timestamp⟩

instance : IsTrans RunSummary newestFirst :=
  ⟨fun _ _ _ hab hbc => Nat.le_trans hbc hab⟩

/-- `getHistoricalData` after fetching: sort newest-first, then compute the
aggregate totals over the sorted results (JS sorts `allResults` in place and
reduces over the same array). -/
def getHistoricalData (allResults : List RunSummary) :
    HistoryTotals × List RunSummary :=
  let sorted := allResults.insertionSort newestFirst
  ({ totalExecutions := sorted.length
     totalSuccess := sorted.foldl (fun s r => s + r.success) 0
     totalFailures := sorted.foldl (fun s r => s + r.failures) 0
     totalCacheHit := sorted.foldl (fun s r => s + r.cacheHit) 0
     totalCacheMiss := sorted.foldl (fun s r => s + r.cacheMiss) 0
     totalCacheExpired := sorted.foldl (fun s r => s + r.cacheExpired) 0
     averageHitRate :=
       if 0 < sorted.length then
         toFixed2 ((sorted.foldl (fun s r => s + r.hitRateQ) 0) / sorted.length)
       else "0.00" }, sorted)

/-! #### Proofs about the pagination cursor -/

theorem pagRun_drop (catalog : List String) (pageSize : Nat) (hP : 0 < pageSize) :
    ∀ fuel offset, offset ≤ catalog.length → catalog.length - offset < fuel →
      pagRun catalog pageSize fuel offset = (catalog.drop offset, 0) := by
  intro fuel
  induction fuel with
  | zero => intro offset _ h; omega
  | succ f ih =>
    intro offset hoff hfuel
    by_cases hfin : catalog.length ≤ min (offset + pageSize) catalog.length
    · have hend : min (offset + pageSize) catalog.length = catalog.length := by omega
      simp only [pagRun, pagStep, hend]
      simp [List.take_length]
    · have hlt : offset + pageSize < catalog.length := by omega
      have hend : min (offset + pageSize) catalog.length = offset + pageSize := by omega
      simp only [pagRun, pagStep, hend, decide_eq_true_eq]
      rw [if_neg (by omega), if_neg (by omega)]
      rw [ih (offset + pageSize) (by omega) (by omega)]
      refine Prod.ext ?_ rfl
      show (catalog.take (offset + pageSize)).drop offset ++
        catalog.drop (offset + pageSize) = catalog.drop offset
      rw [List.drop_take]
      have h2 : offset + pageSize - offset = pageSize := by omega
      have h3 : catalog.drop (offset + pageSize) =
          (catalog.drop offset).drop pageSize := by rw [List.drop_drop]
      rw [h2, h3, List.take_append_drop]

/-- C1: for every catalog and page size `P > 0`, iterating the scheduled
handler's pagination step from offset 0 until the cycle completes visits
every element of the catalog exactly once, in order (the concatenation of the
slices is the catalog itself), and the persisted offset is back at 0. -/
theorem pagination_cycle_visits_all (catalog : List String) (pageSize : Nat)
    (hP : 0 < pageSize) :
    pagRun catalog pageSize (catalog.length + 1) 0 = (catalog, 0) := by
  have h := pagRun_drop catalog pageSize hP (catalog.length + 1) 0
    (Nat.zero_le _) (by omega)
  simpa using h

/-- Witness for C1 at a concrete catalog and page size. -/
theorem pagination_cycle_visits_all_witness :
    pagRun ["a", "b", "c"] 2 4 0 = (["a", "b", "c"], 0) :=
  pagination_cycle_visits_all ["a", "b", "c"] 2 (by decide)

/-! #### Proofs about region rotation -/

theorem rotateCalls_spec (keys : List String) :
    ∀ k i : Nat, i + k ≤ keys.length →
      rotateCalls keys ((i : Int) - 1) k =
        ((keys.drop i).take k, (i : Int) + k - 1) := by
  intro k
  induction k with
  | zero => intro i h; simp [rotateCalls]
  | succ k ih =>
    intro i h
    have hi : i < keys.length := by omega
    have hmod : ((i : Int) - 1 + 1) % ((keys.length : Nat) : Int) = (i : Int) := by
      rw [sub_add_cancel]
      exact Int.emod_eq_of_lt (Int.ofNat_nonneg i) (by exact_mod_cast hi)
    have hcast : ((i : Int)) = ((i + 1 : Nat) : Int) - 1 := by push_cast; ring
    simp only [rotateCalls, nextRegionOk, hmod, Int.toNat_natCast]
    rw [List.getD_eq_getElem?_getD, List.getElem?_eq_getElem hi, Option.getD_some]
    rw [hcast, ih (i + 1) (by omega)]
    refine Prod.ext ?_ ?_
    · show keys[i] :: (keys.drop (i + 1)).take k = (keys.drop i).take (k + 1)
      rw [List.drop_eq_getElem_cons hi, List.take_succ_cons]
    · show ((i + 1 : Nat) : Int) + k - 1 = ((i + 1 : Nat) : Int) - 1 + (k + 1) - 1
      push_cast; ring

theorem rotateCalls_add (keys : List String) (c : Int) (k1 k2 : Nat) :
    rotateCalls keys c (k1 + k2) =
      ((rotateCalls keys c k1).1 ++
          (rotateCalls keys (rotateCalls keys c k1).2 k2).1,
        (rotateCalls keys (rotateCalls keys c k1).2 k2).2) := by
  induction k1 generalizing c with
  | zero => simp [rotateCalls]
  | succ k ih =>
    have hc : k + 1 + k2 = (k + k2) + 1 := by omega
    rw [hc]
    simp only [rotateCalls]
    rw [ih]
    simp [rotateCalls]

/-- C5: region rotation is a pure round-robin over the configured region
list: starting from the absent-cursor state (index `-1`), the first `N` calls
(`N` = region count) return exactly the configured regions in order — each
exactly once — and the `(N+1)`-th call repeats the first region. -/
theorem region_rotation_round_robin (keys : List String) (h : keys ≠ []) :
    (rotateCalls keys (-1) keys.length).1 = keys ∧
    (rotateCalls keys (-1) (keys.length + 1)).1 = keys ++ [keys.getD 0 ""] := by
  have hN : 0 < keys.length := List.length_pos.mpr h
  have h1 := rotateCalls_spec keys keys.length 0 (by omega)
  rw [show ((0 : Nat) : Int) - 1 = -1 by norm_num] at h1
  rw [show ((0 : Nat) : Int) + (keys.length : Int) - 1 = (keys.length : Int) - 1
    by push_cast; ring] at h1
  constructor
  · rw [h1]; simp
  · rw [rotateCalls_add keys (-1) keys.length 1, h1]
    simp only [rotateCalls, nextRegionOk]
    rw [sub_add_cancel, Int.emod_self]
    simp

/-- Witness for C5 with two configured regions. -/
theorem region_rotation_round_robin_witness :
    (rotateCalls ["A", "B"] (-1) 2).1 = ["A", "B"] ∧
    (rotateCalls ["A", "B"] (-1) 3).1 = ["A", "B"] ++ [["A", "B"].getD 0 ""] :=
  region_rotation_round_robin ["A", "B"] (by decide)

/-- C10: `getNextRegion` raises an error iff the configured region list is
empty; for every non-empty configuration it returns a region from the list,
and a failing cursor read or cursor write is swallowed: the first region in
rotation order is returned and the cursor is left unchanged. -/
theorem next_region_error_iff (keys : List String) (cursor : Option Int)
    (rf wf : Bool) :
    ((∃ e, getNextRegionKV keys cursor rf wf = .error e) ↔ keys = []) ∧
    (keys ≠ [] → ∃ r c2,
      getNextRegionKV keys cursor rf wf = .ok (r, c2) ∧ r ∈ keys) ∧
    ((rf = true ∨ wf = true) → keys ≠ [] →
      getNextRegionKV keys cursor rf wf = .ok (keys.getD 0 "", cursor)) := by
  by_cases hk : keys = []
  · subst hk
    refine ⟨⟨fun _ => rfl, fun _ => ⟨"No regions configured", rfl⟩⟩, ?_, ?_⟩
    · intro h; exact absurd rfl h
    · intro _ h; exact absurd rfl h
  · have hN : 0 < keys.length := List.length_pos.mpr hk
    have hd0 : keys.getD 0 "" ∈ keys := by
      cases keys with
      | nil => exact absurd rfl hk
      | cons a t => simp [List.getD]
    have hidx : ∀ lastIndex : Int,
        ((lastIndex + 1) % ((keys.length : Nat) : Int)).toNat < keys.length := by
      intro lastIndex
      have h0 : 0 ≤ (lastIndex + 1) % ((keys.length : Nat) : Int) :=
        Int.emod_nonneg _ (by exact_mod_cast hN.ne')
      have h1 : (lastIndex + 1) % ((keys.length : Nat) : Int) <
          ((keys.length : Nat) : Int) := Int.emod_lt_of_pos _ (by exact_mod_cast hN)
      omega
    have hmem : ∀ lastIndex : Int,
        keys.getD ((lastIndex + 1) % ((keys.length : Nat) : Int)).toNat "" ∈ keys := by
      intro lastIndex
      rw [List.getD_eq_getElem?_getD, List.getElem?_eq_getElem (hidx lastIndex),
        Option.getD_some]
      exact List.getElem_mem _
    refine ⟨⟨?_, fun h => absurd h hk⟩, ?_, ?_⟩
    · rintro ⟨e, he⟩
      exfalso
      unfold getNextRegionKV at he
      rw [if_neg (by omega)] at he
      cases rf <;> cases wf <;> simp at he
    · intro _
      unfold getNextRegionKV
      rw [if_neg (by omega)]
      cases rf <;> cases wf <;>
        exact ⟨_, _, rfl, by first | exact hd0 | exact hmem _⟩
    · intro hfail _
      unfold getNextRegionKV
      rw [if_neg (by omega)]
      rcases hfail with hrf | hwf
      · subst hrf; rfl
      · subst hwf; cases rf <;> rfl

/-- Witness for C10: two regions, no backing-store failure. -/
theorem next_region_error_iff_witness :
    ∃ r c2, getNextRegionKV ["A", "B"] (some 0) false false = .ok (r, c2) ∧
      r ∈ ["A", "B"] :=
  (next_region_error_iff ["A", "B"] (some 0) false false).2.1 (by decide)

/-! #### Proofs about the warming executor -/

theorem warmStep_ok_counts (tc : String) (rc : List String) (st : Results)
    (url : String) (status : Nat) (csh cfh : Option String) :
    (warmStep tc rc st (url, .ok status csh cfh)).success = st.success + 1 ∧
    (warmStep tc rc st (url, .ok status csh cfh)).failures = st.failures ∧
    (warmStep tc rc st (url, .ok status csh cfh)).urls =
      st.urls ++ entriesOf tc rc (url, .ok status csh cfh) ∧
    (warmStep tc rc st (url, .ok status csh cfh)).cacheHit +
        (warmStep tc rc st (url, .ok status csh cfh)).cacheMiss +
        (warmStep tc rc st (url, .ok status csh cfh)).cacheExpired +
        (warmStep tc rc st (url, .ok status csh cfh)).cacheOther =
      st.cacheHit + st.cacheMiss + st.cacheExpired + st.cacheOther + 1 := by
  simp only [warmStep, warmOkBody, entriesOf, tallyCache, tallyColo, tallyRegion]
  split_ifs <;> simp <;> omega

theorem warmStep_drain_counts (tc : String) (rc : List String) (st : Results)
    (url : String) (status : Nat) (csh cfh : Option String) (msg : String) :
    (warmStep tc rc st (url, .okDrainErr status csh cfh msg)).success =
      st.success + 1 ∧
    (warmStep tc rc st (url, .okDrainErr status csh cfh msg)).failures =
      st.failures + 1 ∧
    (warmStep tc rc st (url, .okDrainErr status csh cfh msg)).urls =
      st.urls ++ entriesOf tc rc (url, .okDrainErr status csh cfh msg) ∧
    (warmStep tc rc st (url, .okDrainErr status csh cfh msg)).cacheHit +
        (warmStep tc rc st (url, .okDrainErr status csh cfh msg)).cacheMiss +
        (warmStep tc rc st (url, .okDrainErr status csh cfh msg)).cacheExpired +
        (warmStep tc rc st (url, .okDrainErr status csh cfh msg)).cacheOther =
      st.cacheHit + st.cacheMiss + st.cacheExpired + st.cacheOther + 1 := by
  simp only [warmStep, warmOkBody, warmCatch, entriesOf, tallyCache, tallyColo,
    tallyRegion]
  split_ifs <;> simp <;> omega

theorem warmStep_err_counts (tc : String) (rc : List String) (st : Results)
    (url msg : String) :
    (warmStep tc rc st (url, .err msg)).success = st.success ∧
    (warmStep tc rc st (url, .err msg)).failures = st.failures + 1 ∧
    (warmStep tc rc st (url, .err msg)).urls =
      st.urls ++ entriesOf tc rc (url, .err msg) ∧
    (warmStep tc rc st (url, .err msg)).cacheHit +
        (warmStep tc rc st (url, .err msg)).cacheMiss +
        (warmStep tc rc st (url, .err msg)).cacheExpired +
        (warmStep tc rc st (url, .err msg)).cacheOther =
      st.cacheHit + st.cacheMiss + st.cacheExpired + st.cacheOther := by
  simp [warmStep, warmCatch, entriesOf]

theorem runWarm_fold (tc : String) (rc : List String) :
    ∀ (inputs : List (String × FetchOutcome)) (st : Results),
      (inputs.foldl (warmStep tc rc) st).success = st.success + countOk inputs ∧
      (inputs.foldl (warmStep tc rc) st).failures = st.failures + countErr inputs ∧
      (inputs.foldl (warmStep tc rc) st).urls =
        st.urls ++ inputs.flatMap (entriesOf tc rc) ∧
      (inputs.foldl (warmStep tc rc) st).cacheHit +
          (inputs.foldl (warmStep tc rc) st).cacheMiss +
          (inputs.foldl (warmStep tc rc) st).cacheExpired +
          (inputs.foldl (warmStep tc rc) st).cacheOther =
        st.cacheHit + st.cacheMiss + st.cacheExpired + st.cacheOther +
          countOk inputs := by
  intro inputs
  induction inputs with
  | nil => intro st; simp [countOk, countErr]
  | cons p rest ih =>
    intro st
    obtain ⟨url, outcome⟩ := p
    have hrest := ih (warmStep tc rc st (url, outcome))
    cases outcome with
    | ok status csh cfh =>
      have hstep := warmStep_ok_counts tc rc st url status csh cfh
      have h1 : countOk ((url, .ok status csh cfh) :: rest) = countOk rest + 1 := by
        simp [countOk, List.countP_cons]
      have h2 : countErr ((url, .ok status csh cfh) :: rest) = countErr rest := by
        simp [countErr, List.countP_cons]
      refine ⟨?_, ?_, ?_, ?_⟩
      · rw [List.foldl_cons, hrest.1, hstep.1, h1]; omega
      · rw [List.foldl_cons, hrest.2.1, hstep.2.1, h2]
      · rw [List.foldl_cons, hrest.2.2.1, hstep.2.2.1, List.flatMap_cons]
        simp
      · rw [List.foldl_cons, h1]
        have ha := hrest.2.2.2
        have hb := hstep.2.2.2
        omega
    | okDrainErr status csh cfh msg =>
      have hstep := warmStep_drain_counts tc rc st url status csh cfh msg
      have h1 : countOk ((url, .okDrainErr status csh cfh msg) :: rest) =
          countOk rest + 1 := by
        simp [countOk, List.countP_cons]
      have h2 : countErr ((url, .okDrainErr status csh cfh msg) :: rest) =
          countErr rest + 1 := by
        simp [countErr, List.countP_cons]
      refine ⟨?_, ?_, ?_, ?_⟩
      · rw [List.foldl_cons, hrest.1, hstep.1, h1]; omega
      · rw [List.foldl_cons, hrest.2.1, hstep.2.1, h2]; omega
      · rw [List.foldl_cons, hrest.2.2.1, hstep.2.2.1, List.flatMap_cons]
        simp
      · rw [List.foldl_cons, h1]
        have ha := hrest.2.2.2
        have hb := hstep.2.2.2
        omega
    | err msg =>
      have hstep := warmStep_err_counts tc rc st url msg
      have h1 : countOk ((url, .err msg) :: rest) = countOk rest := by
        simp [countOk, List.countP_cons]
      have h2 : countErr ((url, .err msg) :: rest) = countErr rest + 1 := by
        simp [countErr, List.countP_cons]
      refine ⟨?_, ?_, ?_, ?_⟩
      · rw [List.foldl_cons, hrest.1, hstep.1, h1]
      · rw [List.foldl_cons, hrest.2.1, hstep.2.1, h2]; omega
      · rw [List.foldl_cons, hrest.2.2.1, hstep.2.2.1, List.flatMap_cons]
        simp
      · rw [List.foldl_cons, h1]
        have ha := hrest.2.2.2
        have hb := hstep.2.2.2
        omega

theorem countOk_add_countErr (inputs : List (String × FetchOutcome)) :
    countOk inputs + countErr inputs = inputs.length + countDrain inputs := by
  induction inputs with
  | nil => rfl
  | cons p rest ih =>
    obtain ⟨url, outcome⟩ := p
    cases outcome <;>
      simp [countOk, countErr, countDrain, List.countP_cons] at * <;> omega

theorem length_flatMap_entriesOf (tc : String) (rc : List String) :
    ∀ inputs : List (String × FetchOutcome),
      (inputs.flatMap (entriesOf tc rc)).length =
        inputs.length + countDrain inputs := by
  intro inputs
  induction inputs with
  | nil => rfl
  | cons p rest ih =>
    obtain ⟨url, outcome⟩ := p
    cases outcome <;>
      simp [entriesOf, countDrain, List.countP_cons, List.flatMap_cons] at * <;>
      omega

/-- Every resolved response tallies exactly one of the four cache-status
counters before the drain can throw, so the four counters always sum to
`success`. -/
theorem runWarm_cache_sum (tc : String) (rc : List String)
    (inputs : List (String × FetchOutcome)) :
    (runWarm tc rc inputs).cacheHit + (runWarm tc rc inputs).cacheMiss +
        (runWarm tc rc inputs).cacheExpired + (runWarm tc rc inputs).cacheOther =
      (runWarm tc rc inputs).success := by
  have h := runWarm_fold tc rc inputs {}
  rw [show runWarm tc rc inputs = inputs.foldl (warmStep tc rc) {} from rfl,
    h.2.2.2, h.1]
  simp

/-- Counterexample to C7 as stated: a URL whose fetch resolves (here 200,
cache HIT) but whose body drain `await response.text()` (warmer-do.js:114)
then throws is counted twice — `success++` (line 113) already ran, and the
`catch` (lines 116-119) runs `failures++` and pushes a second entry.  For
this 1-URL run, `success + failures = 2 ≠ 1` and there are 2 detail
entries. -/
theorem drain_failure_double_counts :
    (runWarm "SFO" ["SFO"]
      [("u", .okDrainErr 200 (some "HIT") (some "a-SFO") "drain boom")]).success
        = 1 ∧
    (runWarm "SFO" ["SFO"]
      [("u", .okDrainErr 200 (some "HIT") (some "a-SFO") "drain boom")]).failures
        = 1 ∧
    (runWarm "SFO" ["SFO"]
      [("u", .okDrainErr 200 (some "HIT") (some "a-SFO") "drain boom")]).urls.length
        = 2 := by
  decide

/-- C7 (amended): a warming run over `k` URLs has `success + failures =
k + d` and records `k + d` per-URL detail entries, where `d` is the number of
URLs whose response resolved but whose body drain then threw (each such URL
is counted both as a success and as a failure, with two entries); every
resolved response still tallies exactly one of the four cache-status
counters, so `cacheHit + cacheMiss + cacheExpired + cacheOther = success`. -/
theorem run_counters_drain_adjusted (tc : String) (rc : List String)
    (inputs : List (String × FetchOutcome)) :
    (runWarm tc rc inputs).success + (runWarm tc rc inputs).failures =
      inputs.length + countDrain inputs ∧
    (runWarm tc rc inputs).urls.length = inputs.length + countDrain inputs ∧
    (runWarm tc rc inputs).cacheHit + (runWarm tc rc inputs).cacheMiss +
        (runWarm tc rc inputs).cacheExpired + (runWarm tc rc inputs).cacheOther =
      (runWarm tc rc inputs).success := by
  have h := runWarm_fold tc rc inputs {}
  have hc := countOk_add_countErr inputs
  refine ⟨?_, ?_, runWarm_cache_sum tc rc inputs⟩
  · rw [show runWarm tc rc inputs = inputs.foldl (warmStep tc rc) {} from rfl,
      h.1, h.2.1]
    simp only [show (({} : Results)).success = 0 from rfl,
      show (({} : Results)).failures = 0 from rfl]
    omega
  · rw [show runWarm tc rc inputs = inputs.foldl (warmStep tc rc) {} from rfl,
      h.2.2.1, show (({} : Results)).urls = [] from rfl, List.nil_append,
      length_flatMap_entriesOf tc rc inputs]

/-- Counterexample to C4 as stated: a URL whose fetch resolves with a non-OK
HTTP response (here status 500, a cache MISS) does NOT increment the failures
counter — the loop counts any resolved response as a success. -/
theorem nonok_response_not_failure :
    (runWarm "SFO" ["SFO"] [("u", .ok 500 (some "MISS") (some "x-LAX"))]).failures
        = 0 ∧
    (runWarm "SFO" ["SFO"] [("u", .ok 500 (some "MISS") (some "x-LAX"))]).success
        = 1 := by
  decide

/-- C4 (amended): only a thrown error — the fetch itself, or the body drain
after a resolved response — is recorded as a per-URL failure; a resolved
non-OK response counts as a success.  Every URL contributes exactly its own
detail entry (two when the drain threw after the detail push), in order, so
no single URL's failure aborts the run. -/
theorem transport_failures_recorded (tc : String) (rc : List String)
    (inputs : List (String × FetchOutcome)) :
    (runWarm tc rc inputs).failures = countErr inputs ∧
    (runWarm tc rc inputs).success = countOk inputs ∧
    (runWarm tc rc inputs).urls = inputs.flatMap (entriesOf tc rc) := by
  have h := runWarm_fold tc rc inputs {}
  refine ⟨?_, ?_, ?_⟩
  · rw [show runWarm tc rc inputs = inputs.foldl (warmStep tc rc) {} from rfl, h.2.1]
    simp
  · rw [show runWarm tc rc inputs = inputs.foldl (warmStep tc rc) {} from rfl, h.1]
    simp
  · rw [show runWarm tc rc inputs = inputs.foldl (warmStep tc rc) {} from rfl,
      h.2.2.1]
    simp

/-- C2: a warmed URL whose `CF-RAY` header is absent or hyphen-free is
treated as location `"UNKNOWN"`: it adds nothing to the location breakdown,
leaves both exact-match counters alone, and counts as a regional mismatch.
Conversely a regional match is tallied exactly when the observed code is
known and listed in the region's acceptable-code set. -/
theorem unknown_trace_is_region_mismatch (tc : String) (rc : List String)
    (st : Results) (url : String) (status : Nat) (csh cfh : Option String) :
    ((cfh = none ∨ ∀ s, cfh = some s → s.data.contains '-' = false) →
      (warmStep tc rc st (url, .ok status csh cfh)).coloBreakdown =
          st.coloBreakdown ∧
      (warmStep tc rc st (url, .ok status csh cfh)).coloMatched =
          st.coloMatched ∧
      (warmStep tc rc st (url, .ok status csh cfh)).coloMismatched =
          st.coloMismatched ∧
      (warmStep tc rc st (url, .ok status csh cfh)).regionMatched =
          st.regionMatched ∧
      (warmStep tc rc st (url, .ok status csh cfh)).regionMismatched =
          st.regionMismatched + 1) ∧
    ((warmStep tc rc st (url, .ok status csh cfh)).regionMatched =
        st.regionMatched + 1 ↔
      actualColoOf cfh ≠ "UNKNOWN" ∧ actualColoOf cfh ∈ rc) := by
  constructor
  · intro h
    have hcolo : actualColoOf cfh = "UNKNOWN" := by
      rcases h with h | h
      · subst h; rfl
      · cases cfh with
        | none => rfl
        | some s =>
          have hs := h s rfl
          simp only [actualColoOf, Option.getD_some]
          rw [if_neg (by simpa using hs)]
    simp only [warmStep, warmOkBody, tallyCache, tallyColo, tallyRegion, hcolo]
    split_ifs <;> simp_all
  · simp only [warmStep, warmOkBody, tallyCache, tallyColo, tallyRegion]
    split_ifs <;> simp_all

/-- Witness for C2: an absent `CF-RAY` header on an otherwise fine response. -/
theorem unknown_trace_is_region_mismatch_witness :
    (warmStep "SFO" ["SFO"] {} ("u", .ok 200 (some "HIT") none)).coloBreakdown =
        ({} : Results).coloBreakdown ∧
    (warmStep "SFO" ["SFO"] {} ("u", .ok 200 (some "HIT") none)).coloMatched =
        ({} : Results).coloMatched ∧
    (warmStep "SFO" ["SFO"] {} ("u", .ok 200 (some "HIT") none)).coloMismatched =
        ({} : Results).coloMismatched ∧
    (warmStep "SFO" ["SFO"] {} ("u", .ok 200 (some "HIT") none)).regionMatched =
        ({} : Results).regionMatched ∧
    (warmStep "SFO" ["SFO"] {} ("u", .ok 200 (some "HIT") none)).regionMismatched =
        ({} : Results).regionMismatched + 1 :=
  (unknown_trace_is_region_mismatch "SFO" ["SFO"] {} "u" 200 (some "HIT") none).1
    (Or.inl rfl)

theorem pctQ_nonneg_le_100 (a b : Nat) (hab : a ≤ b) :
    0 ≤ ((a : ℚ) / b) * 100 ∧ ((a : ℚ) / b) * 100 ≤ 100 := by
  rcases Nat.eq_zero_or_pos b with hb | hb
  · subst hb
    have : a = 0 := by omega
    subst this
    norm_num
  · have hb' : (0 : ℚ) < b := by exact_mod_cast hb
    constructor
    · positivity
    · have h1 : (a : ℚ) / b ≤ 1 := by
        rw [div_le_one hb']
        exact_mod_cast hab
      calc ((a : ℚ) / b) * 100 ≤ 1 * 100 := by
            apply mul_le_mul_of_nonneg_right h1; norm_num
        _ = 100 := by norm_num

/-- C3: each of the three rates of a run result renders `"0.00"` when its
denominator is zero, each rate string is `toFixed(2)` of its exact rational
value, and each rational value lies in `[0, 100]`. -/
theorem run_rates_bounded (tc : String) (rc : List String)
    (inputs : List (String × FetchOutcome)) :
    ((runWarm tc rc inputs).success = 0 →
      hitRateStr (runWarm tc rc inputs) = "0.00") ∧
    ((runWarm tc rc inputs).coloMatched + (runWarm tc rc inputs).coloMismatched = 0 →
      coloMatchRateStr (runWarm tc rc inputs) = "0.00") ∧
    ((runWarm tc rc inputs).regionMatched +
        (runWarm tc rc inputs).regionMismatched = 0 →
      regionMatchRateStr (runWarm tc rc inputs) = "0.00") ∧
    hitRateStr (runWarm tc rc inputs) = toFixed2 (hitRateQ (runWarm tc rc inputs)) ∧
    coloMatchRateStr (runWarm tc rc inputs) =
      toFixed2 (coloMatchRateQ (runWarm tc rc inputs)) ∧
    regionMatchRateStr (runWarm tc rc inputs) =
      toFixed2 (regionMatchRateQ (runWarm tc rc inputs)) ∧
    0 ≤ hitRateQ (runWarm tc rc inputs) ∧
    hitRateQ (runWarm tc rc inputs) ≤ 100 ∧
    0 ≤ coloMatchRateQ (runWarm tc rc inputs) ∧
    coloMatchRateQ (runWarm tc rc inputs) ≤ 100 ∧
    0 ≤ regionMatchRateQ (runWarm tc rc inputs) ∧
    regionMatchRateQ (runWarm tc rc inputs) ≤ 100 := by
  set r := runWarm tc rc inputs with hr
  have hcache : r.cacheHit + r.cacheExpired ≤ r.success := by
    have h := runWarm_cache_sum tc rc inputs
    rw [← hr] at h
    omega
  have hhit := pctQ_nonneg_le_100 (r.cacheHit + r.cacheExpired) r.success hcache
  have hcolo := pctQ_nonneg_le_100 r.coloMatched (r.coloMatched + r.coloMismatched)
    (by omega)
  have hregion := pctQ_nonneg_le_100 r.regionMatched
    (r.regionMatched + r.regionMismatched) (by omega)
  refine ⟨?_, ?_, ?_, ?_, ?_, ?_, ?_, ?_, ?_, ?_, ?_, ?_⟩
  · intro h; simp [hitRateStr, h]
  · intro h; simp [coloMatchRateStr, h]
  · intro h; simp [regionMatchRateStr, h]
  · by_cases h : r.success = 0
    · simp [hitRateStr, hitRateQ, h]; decide
    · simp [hitRateStr, hitRateQ, h]
  · by_cases h : r.coloMatched + r.coloMismatched = 0
    · simp [coloMatchRateStr, coloMatchRateQ, h]; decide
    · simp [coloMatchRateStr, coloMatchRateQ, h]
  · by_cases h : r.regionMatched + r.regionMismatched = 0
    · simp [regionMatchRateStr, regionMatchRateQ, h]; decide
    · simp [regionMatchRateStr, regionMatchRateQ, h]
  · unfold hitRateQ
    split_ifs with h
    · norm_num
    · have := hhit.1; push_cast at this ⊢; convert this using 2
  · unfold hitRateQ
    split_ifs with h
    · norm_num
    · have := hhit.2; push_cast at this ⊢; convert this using 2
  · unfold coloMatchRateQ
    split_ifs with h
    · norm_num
    · have := hcolo.1; push_cast at this ⊢; convert this using 2
  · unfold coloMatchRateQ
    split_ifs with h
    · norm_num
    · have := hcolo.2; push_cast at this ⊢; convert this using 2
  · unfold regionMatchRateQ
    split_ifs with h
    · norm_num
    · have := hregion.1; push_cast at this ⊢; convert this using 2
  · unfold regionMatchRateQ
    split_ifs with h
    · norm_num
    · have := hregion.2; push_cast at this ⊢; convert this using 2

/-- Witness for C3: a run with a single transport failure (all denominators
zero). -/
theorem run_rates_bounded_witness :
    hitRateStr (runWarm "SFO" ["SFO"] [("u", .err "boom")]) = "0.00" ∧
    coloMatchRateStr (runWarm "SFO" ["SFO"] [("u", .err "boom")]) = "0.00" ∧
    regionMatchRateStr (runWarm "SFO" ["SFO"] [("u", .err "boom")]) = "0.00" :=
  ⟨(run_rates_bounded "SFO" ["SFO"] [("u", .err "boom")]).1 (by decide),
    (run_rates_bounded "SFO" ["SFO"] [("u", .err "boom")]).2.1 (by decide),
    (run_rates_bounded "SFO" ["SFO"] [("u", .err "boom")]).2.2.1 (by decide)⟩

/-! #### Proofs about the trigger paths -/

/-- Counterexample to C6 as stated: with a persisted pagination offset of 2
for the region, a manual `/trigger` run over catalog `["a","b","c","d"]` with
`urlCount = 2` warms the first two URLs — not the slice at the persisted
offset — and leaves the offset at 2, while a scheduled run would have warmed
`["c","d"]` and persisted 0. -/
theorem manual_trigger_ignores_cursor :
    (triggerSlice ["a", "b", "c", "d"] 2 2).1 ≠
      (scheduledSlice ["a", "b", "c", "d"] 2 2).1 ∧
    (triggerSlice ["a", "b", "c", "d"] 2 2).1 = ["a", "b"] ∧
    (triggerSlice ["a", "b", "c", "d"] 2 2).2 = 2 ∧
    (scheduledSlice ["a", "b", "c", "d"] 2 2).1 = ["c", "d"] ∧
    (scheduledSlice ["a", "b", "c", "d"] 2 2).2 = 0 := by
  decide

/-- C6 (amended): a scheduled invocation takes its slice starting at the
region's persisted pagination offset and persists the advanced (or wrapped)
offset, while a manual `/trigger` invocation always slices the first
`urlCount` URLs of the catalog — its slice is independent of the persisted
offset, which it leaves unchanged. -/
theorem scheduled_uses_cursor_manual_does_not (catalog : List String)
    (pageSize off : Nat) (h : off ≤ catalog.length) :
    (scheduledSlice catalog pageSize off).1 = (catalog.drop off).take pageSize ∧
    (scheduledSlice catalog pageSize off).2 =
      (if catalog.length ≤ off + pageSize then 0 else off + pageSize) ∧
    (∀ urlCount off1 off2, (triggerSlice catalog urlCount off1).1 =
      (triggerSlice catalog urlCount off2).1) ∧
    (∀ urlCount off1, (triggerSlice catalog urlCount off1).2 = off1) := by
  refine ⟨?_, ?_, fun _ _ _ => rfl, fun _ _ => rfl⟩
  · simp only [scheduledSlice]
    rw [List.drop_take]
    refine List.take_eq_take.mpr ?_
    rw [List.length_drop]
    omega
  · simp only [scheduledSlice]
    by_cases hc : catalog.length ≤ off + pageSize
    · rw [if_pos (by omega), if_pos hc]
    · rw [if_neg (by omega), if_neg hc]
      omega

/-- Witness for the amended C6 at a concrete catalog and offset. -/
theorem scheduled_uses_cursor_manual_does_not_witness :
    (scheduledSlice ["a", "b", "c"] 2 1).1 = (["a", "b", "c"].drop 1).take 2 ∧
    (scheduledSlice ["a", "b", "c"] 2 1).2 =
      (if ["a", "b", "c"].length ≤ 1 + 2 then 0 else 1 + 2) ∧
    (∀ urlCount off1 off2, (triggerSlice ["a", "b", "c"] urlCount off1).1 =
      (triggerSlice ["a", "b", "c"] urlCount off2).1) ∧
    (∀ urlCount off1, (triggerSlice ["a", "b", "c"] urlCount off1).2 = off1) :=
  scheduled_uses_cursor_manual_does_not ["a", "b", "c"] 2 1 (by decide)

/-! #### Proofs about URL discovery -/

theorem dedupFirst_sublist (seen : List String) (l : List String) :
    (dedupFirst seen l).Sublist l := by
  induction l generalizing seen with
  | nil => simp [dedupFirst]
  | cons u rest ih =>
    simp only [dedupFirst]
    split_ifs with h
    · exact (ih seen).cons u
    · exact (ih (u :: seen)).cons₂ u

theorem mem_dedupFirst (seen l : List String) (u : String) :
    u ∈ dedupFirst seen l ↔ u ∈ l ∧ u ∉ seen := by
  induction l generalizing seen with
  | nil => simp [dedupFirst]
  | cons v rest ih =>
    simp only [dedupFirst]
    split_ifs with h
    · rw [ih, List.mem_cons]
      constructor
      · rintro ⟨hm, hn⟩; exact ⟨Or.inr hm, hn⟩
      · rintro ⟨hm | hm, hn⟩
        · subst hm; exact absurd h hn
        · exact ⟨hm, hn⟩
    · rw [List.mem_cons, List.mem_cons, ih (v :: seen)]
      constructor
      · rintro (rfl | ⟨hm, hn⟩)
        · exact ⟨Or.inl rfl, h⟩
        · rw [List.mem_cons] at hn
          push_neg at hn
          exact ⟨Or.inr hm, hn.2⟩
      · rintro ⟨rfl | hm, hn⟩
        · exact Or.inl rfl
        · by_cases huv : u = v
          · exact Or.inl huv
          · refine Or.inr ⟨hm, ?_⟩
            rw [List.mem_cons]
            push_neg
            exact ⟨huv, hn⟩

theorem nodup_dedupFirst (seen l : List String) : (dedupFirst seen l).Nodup := by
  induction l generalizing seen with
  | nil => simp [dedupFirst]
  | cons v rest ih =>
    simp only [dedupFirst]
    split_ifs with h
    · exact ih seen
    · refine List.Nodup.cons ?_ (ih (v :: seen))
      intro hmem
      rw [mem_dedupFirst] at hmem
      exact hmem.2 (List.mem_cons_self v seen)

/-- C8: discovery deduplicates by URL string equality across all sources —
the output has no duplicates, contains exactly the URLs extracted
depth-first from the sitemap trees, and is a subsequence of that depth-first
URL stream (each URL kept at its first encounter).  In particular an index
referencing two leaves `["a","b"]` and `["b","c"]` yields `["a","b","c"]`:
the union, the overlap counted once. -/
theorem discovery_dedup_first_encounter (sources : List Sitemap) :
    (getAllUrls sources).Nodup ∧
    (∀ u, u ∈ getAllUrls sources ↔ u ∈ parseSitemapList sources) ∧
    (getAllUrls sources).Sublist (parseSitemapList sources) ∧
    getAllUrls [Sitemap.index [Sitemap.leaf ["a", "b"], Sitemap.leaf ["b", "c"]]] =
      ["a", "b", "c"] ∧
    (getAllUrls [Sitemap.index [Sitemap.leaf ["a", "b"],
      Sitemap.leaf ["b", "c"]]]).length = 3 := by
  refine ⟨nodup_dedupFirst _ _, ?_, dedupFirst_sublist _ _, by decide, by decide⟩
  intro u
  rw [getAllUrls, mem_dedupFirst]
  simp

/-! #### Proofs about history aggregation -/

theorem foldl_add_map_sum {M : Type} [AddCommMonoid M] {α : Type} (f : α → M) :
    ∀ (l : List α) (a : M), l.foldl (fun s r => s + f r) a = a + (l.map f).sum := by
  intro l
  induction l with
  | nil => intro a; simp
  | cons x rest ih => intro a; simp [ih, add_assoc]

/-- C9: history retrieval returns the fetched results sorted newest-first by
timestamp, with totals computed over exactly the returned results:
`totalExecutions` is their count, the five total counters are field-wise
sums, `averageHitRate` is the arithmetic mean of the per-result hit rates
formatted to two decimals (`"0.00"` with no results).  Results with success
10 / rate 80 and success 5 / rate 60 yield `totalSuccess = 15` and
`averageHitRate = "70.00"`. -/
theorem history_sorted_newest_first_and_totals (allResults : List RunSummary) :
    List.Perm (getHistoricalData allResults).2 allResults ∧
    List.Sorted newestFirst (getHistoricalData allResults).2 ∧
    (getHistoricalData allResults).1.totalExecutions =
      (getHistoricalData allResults).2.length ∧
    (getHistoricalData allResults).1.totalSuccess =
      ((getHistoricalData allResults).2.map (·.success)).sum ∧
    (getHistoricalData allResults).1.totalFailures =
      ((getHistoricalData allResults).2.map (·.failures)).sum ∧
    (getHistoricalData allResults).1.totalCacheHit =
      ((getHistoricalData allResults).2.map (·.cacheHit)).sum ∧
    (getHistoricalData allResults).1.totalCacheMiss =
      ((getHistoricalData allResults).2.map (·.cacheMiss)).sum ∧
    (getHistoricalData allResults).1.totalCacheExpired =
      ((getHistoricalData allResults).2.map (·.cacheExpired)).sum ∧
    (allResults = [] → (getHistoricalData allResults).1.averageHitRate = "0.00") ∧
    (0 < allResults.length →
      (getHistoricalData allResults).1.averageHitRate =
        toFixed2 ((((getHistoricalData allResults).2.map (·.hitRateQ)).sum) /
          allResults.length)) ∧
    (getHistoricalData [⟨1000, 10, 0, 0, 0, 0, 80⟩,
      ⟨2000, 5, 0, 0, 0, 0, 60⟩]).1.totalSuccess = 15 ∧
    (getHistoricalData [⟨1000, 10, 0, 0, 0, 0, 80⟩,
      ⟨2000, 5, 0, 0, 0, 0, 60⟩]).1.averageHitRate = "70.00" := by
  have hperm := List.perm_insertionSort newestFirst allResults
  have hlen : (allResults.insertionSort newestFirst).length = allResults.length :=
    hperm.length_eq
  refine ⟨hperm, List.sorted_insertionSort newestFirst allResults, ?_, ?_, ?_, ?_,
    ?_, ?_, ?_, ?_, by decide, ?_⟩
  · rfl
  · exact (foldl_add_map_sum _ _ 0).trans (zero_add _)
  · exact (foldl_add_map_sum _ _ 0).trans (zero_add _)
  · exact (foldl_add_map_sum _ _ 0).trans (zero_add _)
  · exact (foldl_add_map_sum _ _ 0).trans (zero_add _)
  · exact (foldl_add_map_sum _ _ 0).trans (zero_add _)
  · rintro rfl; rfl
  · intro hpos
    show (if 0 < (allResults.insertionSort newestFirst).length then _ else _) = _
    rw [if_pos (by rw [hlen]; exact hpos)]
    rw [foldl_add_map_sum, zero_add, hlen]
    rfl
  · have hsort : ([⟨1000, 10, 0, 0, 0, 0, 80⟩, ⟨2000, 5, 0, 0, 0, 0, 60⟩] :
        List RunSummary).insertionSort newestFirst =
        [⟨2000, 5, 0, 0, 0, 0, 60⟩, ⟨1000, 10, 0, 0, 0, 0, 80⟩] := by decide
    show (getHistoricalData _).1.averageHitRate = "70.00"
    simp only [getHistoricalData, hsort]
    norm_num [List.foldl]
    decide

/-- Witness for C9's conditional conjuncts: the empty fetch yields
`averageHitRate = "0.00"`. -/
theorem history_sorted_newest_first_and_totals_witness :
    (getHistoricalData []).1.averageHitRate = "0.00" :=
  (history_sorted_newest_first_and_totals []).2.2.2.2.2.2.2.2.1 rfl

end CacheWarmer
